import Mathlib

/-!
Verification of the disk-backed memoization layer in `naren`
(`src/naren/_diskcache_fn.py`).

The development shallowly embeds the two Python functions of the module:

* `_arg_hash(args, kwargs)`, which serializes the pair `(args, kwargs)`
  with `pickle.dumps` and returns the hex-encoded MD5 digest of the
  resulting bytes; and
* the `wrapper` closure produced by `diskcache_fn(cache_dir)`, which
  derives the key, resolves the cache directory, and either loads the
  artifact `<name>_<key>.pkl` (hit) or invokes the wrapped function,
  creates the directory with `mkdir(parents=True, exist_ok=True)`, and
  writes the pickled result (miss).

Python values are modelled by the inductive type `PyVal`; `pickle.dumps`
is modelled by a deterministic, injectively decodable byte encoding
`pickleDumps` that fails (returns `none`, the `TypeError` of the real
library) exactly on values containing a non-picklable component, and
mirrors the fact that CPython serializes dict items in iteration
(insertion) order.  MD5 is implemented in full, so keys of concrete
inputs are computed, not assumed.  The filesystem is a pair of a
file map and a directory set; opening a file for writing creates it at
once, before any payload byte is written, exactly as `open(path, "wb")`
does.
-/

namespace Naren

/-! ## MD5 (RFC 1321), operating on lists of bytes (`Nat` values below 256) -/

/-- 2 to the power 32, the word modulus of MD5. -/
def M32 : Nat := 4294967296

/-- Rotate a 32-bit word left by `n` bits. -/
def rotl (x n : Nat) : Nat :=
  (((x <<< n) % M32) ||| (x >>> (32 - n)))

/-- The 64 MD5 sine-derived constants. -/
def md5K : List Nat :=
  [0xd76aa478, 0xe8c7b756, 0x242070db, 0xc1bdceee,
   0xf57c0faf, 0x4787c62a, 0xa8304613, 0xfd469501,
   0x698098d8, 0x8b44f7af, 0xffff5bb1, 0x895cd7be,
   0x6b901122, 0xfd987193, 0xa679438e, 0x49b40821,
   0xf61e2562, 0xc040b340, 0x265e5a51, 0xe9b6c7aa,
   0xd62f105d, 0x02441453, 0xd8a1e681, 0xe7d3fbc8,
   0x21e1cde6, 0xc33707d6, 0xf4d50d87, 0x455a14ed,
   0xa9e3e905, 0xfcefa3f8, 0x676f02d9, 0x8d2a4c8a,
   0xfffa3942, 0x8771f681, 0x6d9d6122, 0xfde5380c,
   0xa4beea44, 0x4bdecfa9, 0xf6bb4b60, 0xbebfbc70,
   0x289b7ec6, 0xeaa127fa, 0xd4ef3085, 0x04881d05,
   0xd9d4d039, 0xe6db99e5, 0x1fa27cf8, 0xc4ac5665,
   0xf4292244, 0x432aff97, 0xab9423a7, 0xfc93a039,
   0x655b59c3, 0x8f0ccc92, 0xffeff47d, 0x85845dd1,
   0x6fa87e4f, 0xfe2ce6e0, 0xa3014314, 0x4e0811a1,
   0xf7537e82, 0xbd3af235, 0x2ad7d2bb, 0xeb86d391]

/-- The 64 MD5 per-round left-rotation amounts. -/
def md5S : List Nat :=
  [7, 12, 17, 22, 7, 12, 17, 22, 7, 12, 17, 22, 7, 12, 17, 22,
   5,  9, 14, 20, 5,  9, 14, 20, 5,  9, 14, 20, 5,  9, 14, 20,
   4, 11, 16, 23, 4, 11, 16, 23, 4, 11, 16, 23, 4, 11, 16, 23,
   6, 10, 15, 21, 6, 10, 15, 21, 6, 10, 15, 21, 6, 10, 15, 21]

/-- The MD5 round mixing function, selected by the round index. -/
def md5F (i b c d : Nat) : Nat :=
  if i < 16 then (b &&& c) ||| ((0xffffffff ^^^ b) &&& d)
  else if i < 32 then (d &&& b) ||| ((0xffffffff ^^^ d) &&& c)
  else if i < 48 then b ^^^ c ^^^ d
  else c ^^^ (b ||| (0xffffffff ^^^ d))

/-- The MD5 message-word schedule, selected by the round index. -/
def md5G (i : Nat) : Nat :=
  if i < 16 then i
  else if i < 32 then (5 * i + 1) % 16
  else if i < 48 then (3 * i + 5) % 16
  else (7 * i) % 16

/-- One MD5 round on the state `(a, b, c, d)` with message words `w`. -/
def md5Step (w : List Nat) (st : Nat × Nat × Nat × Nat) (i : Nat) :
    Nat × Nat × Nat × Nat :=
  let (a, b, c, d) := st
  let f := (md5F i b c d + a + md5K.getD i 0 + w.getD (md5G i) 0) % M32
  (d, (b + rotl f (md5S.getD i 0)) % M32, b, c)

/-- Process one 512-bit block given as sixteen 32-bit words. -/
def md5Block (st : Nat × Nat × Nat × Nat) (w : List Nat) :
    Nat × Nat × Nat × Nat :=
  let (a, b, c, d) := (List.range 64).foldl (md5Step w) st
  ((st.1 + a) % M32, (st.2.1 + b) % M32, (st.2.2.1 + c) % M32,
   (st.2.2.2 + d) % M32)

/-- Group bytes into little-endian 32-bit words. -/
def toWords : List Nat → List Nat
  | b0 :: b1 :: b2 :: b3 :: rest =>
    (b0 + 256 * b1 + 65536 * b2 + 16777216 * b3) :: toWords rest
  | _ => []

/-- A 64-bit value as eight little-endian bytes. -/
def le8 (w : Nat) : List Nat :=
  (List.range 8).map (fun i => (w / 256 ^ i) % 256)

/-- A 32-bit value as four little-endian bytes. -/
def le4 (w : Nat) : List Nat :=
  [w % 256, (w / 256) % 256, (w / 65536) % 256, (w / 16777216) % 256]

/-- MD5 padding: a 1 bit, zeros to 56 mod 64, then the bit length. -/
def md5Pad (msg : List Nat) : List Nat :=
  msg ++ 128 :: List.replicate ((120 - ((msg.length + 1) % 64)) % 64) 0
      ++ le8 ((8 * msg.length) % (2 ^ 64))

/-- Group a word list into 16-word blocks; a padded message has no
leftover words. -/
def toBlocks : List Nat → List (List Nat)
  | w0 :: w1 :: w2 :: w3 :: w4 :: w5 :: w6 :: w7 ::
    w8 :: w9 :: w10 :: w11 :: w12 :: w13 :: w14 :: w15 :: rest =>
    [w0, w1, w2, w3, w4, w5, w6, w7,
     w8, w9, w10, w11, w12, w13, w14, w15] :: toBlocks rest
  | _ => []

/-- The MD5 digest of a byte list, as sixteen bytes. -/
def md5 (msg : List Nat) : List Nat :=
  let st := (toBlocks (toWords (md5Pad msg))).foldl md5Block
      (0x67452301, 0xefcdab89, 0x98badcfe, 0x10325476)
  le4 st.1 ++ le4 st.2.1 ++ le4 st.2.2.1 ++ le4 st.2.2.2

/-- Lowercase hex digit for a value below 16. -/
def hexChar (n : Nat) : Char :=
  if n < 10 then Char.ofNat (48 + n) else Char.ofNat (87 + n)

/-- Two lowercase hex digits for one byte. -/
def byteHex (b : Nat) : String :=
  String.mk [hexChar (b / 16), hexChar (b % 16)]

/-- The hex-encoded MD5 digest, the format of `hashlib.md5(...).hexdigest()`. -/
def md5Hex (msg : List Nat) : String :=
  String.join ((md5 msg).map byteHex)

/-! ## Python values and the `pickle` serialization model

`pickle.dumps` is a deterministic function of the value it is given: for
the value kinds below it emits a byte stream that depends only on the
structure of the value, serializing tuple elements left to right and
dict items in iteration (= insertion) order.  The concrete encoding
below is a model of that byte stream — tag bytes plus length-prefixed
payloads — chosen so that it is provably decodable, which the real
format also is.  What the claims rely on is exactly what the model
provides: the encoding is deterministic, order-sensitive for dict
items, injective on picklable values, and fails with a `TypeError`
(here `none`) exactly when the value contains a non-picklable part. -/

/-- A Python value, as far as the cache is concerned.  `unpicklable`
stands for any object that `pickle.dumps` rejects, such as an open file
handle or a lambda; the `Nat` tag merely distinguishes such objects. -/
inductive PyVal where
  | int : Int → PyVal
  | str : String → PyVal
  | tuple : List PyVal → PyVal
  | dict : List (PyVal × PyVal) → PyVal
  | unpicklable : Nat → PyVal

/-- Worker for `encNat`; the fuel argument only drives termination. -/
def encNatAux : Nat → Nat → List Nat
  | 0, _ => [255]
  | fuel + 1, n =>
    if n = 0 then [255] else (n % 255) :: encNatAux fuel (n / 255)

/-- Encode a natural number as base-255 digits terminated by byte 255. -/
def encNat (n : Nat) : List Nat :=
  encNatAux n n

theorem encNatAux_congr (f1 : Nat) : ∀ f2 n, n ≤ f1 → n ≤ f2 →
    encNatAux f1 n = encNatAux f2 n := by
  induction f1 with
  | zero =>
    intro f2 n h1 _
    interval_cases n
    cases f2 <;> simp [encNatAux]
  | succ f1 ih =>
    intro f2 n h1 h2
    cases f2 with
    | zero =>
      interval_cases n
      simp [encNatAux]
    | succ f2 =>
      by_cases hn : n = 0
      · simp [encNatAux, hn]
      · have hd : n / 255 < n := Nat.div_lt_self (Nat.pos_of_ne_zero hn)
          (by decide)
        simp only [encNatAux, if_neg hn]
        rw [ih f2 (n / 255) (by omega) (by omega)]

/-- The defining recurrence of `encNat`. -/
theorem encNat_eq (n : Nat) :
    encNat n = if n = 0 then [255] else (n % 255) :: encNat (n / 255) := by
  by_cases hn : n = 0
  · simp [encNat, hn, encNatAux]
  · obtain ⟨m, rfl⟩ : ∃ m, n = m + 1 := ⟨n - 1, by omega⟩
    have hd : (m + 1) / 255 < m + 1 := Nat.div_lt_self (by omega) (by decide)
    simp only [encNat, encNatAux, if_neg hn]
    rw [encNatAux_congr m ((m + 1) / 255) ((m + 1) / 255) (by omega)
      (by omega)]

/-- Decode a base-255 number terminated by byte 255. -/
def decNat : List Nat → Option (Nat × List Nat)
  | [] => none
  | b :: rest =>
    if b = 255 then some (0, rest)
    else match decNat rest with
      | some (m, r) => some (b + 255 * m, r)
      | none => none

/-- Encode a string as a length followed by its character codepoints. -/
def encStr (s : String) : List Nat :=
  encNat s.length ++ (s.data.map (fun c => encNat c.toNat)).flatten

mutual

/-- Model of `pickle.dumps` on one value: `none` on non-picklable input,
otherwise a tagged byte stream.  Dict items are emitted in list order,
mirroring the insertion-order iteration of a Python dict. -/
def pickleDumps : PyVal → Option (List Nat)
  | .int i =>
    some (if i < 0 then 1 :: encNat ((-i).toNat) else 0 :: encNat i.toNat)
  | .str s => some (2 :: encStr s)
  | .tuple xs =>
    match pickleList xs with
    | some bs => some (3 :: (encNat xs.length ++ bs))
    | none => none
  | .dict ps =>
    match picklePairs ps with
    | some bs => some (4 :: (encNat ps.length ++ bs))
    | none => none
  | .unpicklable _ => none

/-- Serialize the elements of a tuple in order; fail if any fails. -/
def pickleList : List PyVal → Option (List Nat)
  | [] => some []
  | v :: vs =>
    match pickleDumps v, pickleList vs with
    | some b, some bs => some (b ++ bs)
    | _, _ => none

/-- Serialize dict items in iteration order; fail if any part fails. -/
def picklePairs : List (PyVal × PyVal) → Option (List Nat)
  | [] => some []
  | (k, v) :: ps =>
    match pickleDumps k, pickleDumps v, picklePairs ps with
    | some bk, some bv, some bs => some (bk ++ bv ++ bs)
    | _, _, _ => none

end

/-- Read `n` length-encoded codepoints from the stream. -/
def decCodes : Nat → List Nat → Option (List Nat × List Nat)
  | 0, bs => some ([], bs)
  | n + 1, bs =>
    match decNat bs with
    | some (c, r) =>
      match decCodes n r with
      | some (cs, r2) => some (c :: cs, r2)
      | none => none
    | none => none

mutual

/-- Decode one serialized value.  The fuel argument only serves
termination; `pickleLoads` supplies enough of it. -/
def decVal : Nat → List Nat → Option (PyVal × List Nat)
  | 0, _ => none
  | fuel + 1, bs =>
    match bs with
    | 0 :: rest =>
      match decNat rest with
      | some (n, r) => some (.int (Int.ofNat n), r)
      | none => none
    | 1 :: rest =>
      match decNat rest with
      | some (n, r) => some (.int (-(Int.ofNat n)), r)
      | none => none
    | 2 :: rest =>
      match decNat rest with
      | some (n, r) =>
        match decCodes n r with
        | some (cs, r2) => some (.str (String.mk (cs.map Char.ofNat)), r2)
        | none => none
      | none => none
    | 3 :: rest =>
      match decNat rest with
      | some (n, r) =>
        match decList fuel n r with
        | some (vs, r2) => some (.tuple vs, r2)
        | none => none
      | none => none
    | 4 :: rest =>
      match decNat rest with
      | some (n, r) =>
        match decPairs fuel n r with
        | some (ps, r2) => some (.dict ps, r2)
        | none => none
      | none => none
    | _ => none

/-- Decode `n` consecutive values. -/
def decList : Nat → Nat → List Nat → Option (List PyVal × List Nat)
  | _, 0, bs => some ([], bs)
  | 0, _ + 1, _ => none
  | fuel + 1, n + 1, bs =>
    match decVal fuel bs with
    | some (v, r) =>
      match decList fuel n r with
      | some (vs, r2) => some (v :: vs, r2)
      | none => none
    | none => none

/-- Decode `n` consecutive key-value pairs. -/
def decPairs : Nat → Nat → List Nat →
    Option (List (PyVal × PyVal) × List Nat)
  | _, 0, bs => some ([], bs)
  | 0, _ + 1, _ => none
  | fuel + 1, n + 1, bs =>
    match decVal fuel bs with
    | some (k, r) =>
      match decVal fuel r with
      | some (v, r2) =>
        match decPairs fuel n r2 with
        | some (ps, r3) => some ((k, v) :: ps, r3)
        | none => none
      | none => none
    | none => none

end

/-- Model of `pickle.load` on the full contents of a file: decode one
value and require the stream to be fully consumed.  `none` models the
exception raised on a truncated or corrupt stream — in particular on an
empty file. -/
def pickleLoads (bs : List Nat) : Option PyVal :=
  match decVal bs.length bs with
  | some (v, []) => some v
  | _ => none

/-! ## Round trip: `pickle.loads (pickle.dumps v) = v` for picklable `v` -/

theorem decNat_encNat (n : Nat) (rest : List Nat) :
    decNat (encNat n ++ rest) = some (n, rest) := by
  induction n using Nat.strong_induction_on with
  | _ n ih =>
    by_cases h : n = 0
    · subst h
      rw [encNat_eq]
      simp [decNat]
    · rw [encNat_eq, if_neg h, List.cons_append]
      have hlt : n % 255 < 255 := Nat.mod_lt _ (by decide)
      simp only [decNat]
      rw [if_neg (by omega),
        ih (n / 255) (Nat.div_lt_self (Nat.pos_of_ne_zero h) (by decide))]
      simp [Nat.mod_add_div]

theorem decCodes_flatten (cs : List Nat) (rest : List Nat) :
    decCodes cs.length ((cs.map encNat).flatten ++ rest) = some (cs, rest) := by
  induction cs with
  | nil => simp [decCodes]
  | cons c cs ih =>
    simp only [List.map_cons, List.flatten_cons, List.length_cons,
      List.append_assoc, decCodes, decNat_encNat, ih]

mutual

/-- Fuel sufficient for `decVal` to decode the encoding of a value. -/
def pvFuel : PyVal → Nat
  | .int _ => 1
  | .str _ => 1
  | .unpicklable _ => 1
  | .tuple xs => pvFuelList xs + 1
  | .dict ps => pvFuelPairs ps + 1

/-- Fuel sufficient to decode each element of a list of values. -/
def pvFuelList : List PyVal → Nat
  | [] => 0
  | v :: vs => pvFuel v + pvFuelList vs + 1

/-- Fuel sufficient to decode each component of a list of pairs. -/
def pvFuelPairs : List (PyVal × PyVal) → Nat
  | [] => 0
  | (k, v) :: ps => pvFuel k + pvFuel v + pvFuelPairs ps + 1

end

mutual

theorem decVal_pickleDumps (v : PyVal) (bs rest : List Nat) (fuel : Nat)
    (h : pickleDumps v = some bs) (hf : pvFuel v ≤ fuel) :
    decVal fuel (bs ++ rest) = some (v, rest) := by
  obtain ⟨f, rfl⟩ : ∃ f, fuel = f + 1 := by
    cases fuel with
    | zero => exact absurd hf (by cases v <;> simp [pvFuel])
    | succ f => exact ⟨f, rfl⟩
  cases v with
  | int i =>
    simp only [pickleDumps] at h
    by_cases hi : i < 0
    · rw [if_pos hi] at h
      cases h
      have hv : -Int.ofNat ((-i).toNat) = i := by
        simp only [Int.ofNat_eq_coe]
        omega
      simp only [List.cons_append, decVal, decNat_encNat, hv]
    · rw [if_neg hi] at h
      cases h
      have hv : Int.ofNat i.toNat = i := by
        simp only [Int.ofNat_eq_coe]
        omega
      simp only [List.cons_append, decVal, decNat_encNat, hv]
  | str s =>
    simp only [pickleDumps] at h
    cases h
    have hmm : s.data.map (fun c => encNat c.toNat)
        = (s.data.map Char.toNat).map encNat := by
      simp [List.map_map, Function.comp_def]
    have hlen : s.length = (s.data.map Char.toNat).length := by
      rw [List.length_map]
      rfl
    have hchars : (s.data.map Char.toNat).map Char.ofNat = s.data := by
      rw [List.map_map]
      exact List.map_id'' Char.ofNat_toNat s.data
    simp only [encStr, hmm, hlen, List.cons_append, List.append_assoc,
      decVal, decNat_encNat, decCodes_flatten, hchars]
  | tuple xs =>
    simp only [pickleDumps] at h
    cases hxs : pickleList xs with
    | none => rw [hxs] at h; cases h
    | some bsL =>
      rw [hxs] at h
      cases h
      have hsub := decList_pickleList xs bsL rest f hxs (by
        simp only [pvFuel] at hf; omega)
      simp only [List.cons_append, List.append_assoc, decVal, decNat_encNat,
        hsub]
  | dict ps =>
    simp only [pickleDumps] at h
    cases hps : picklePairs ps with
    | none => rw [hps] at h; cases h
    | some bsP =>
      rw [hps] at h
      cases h
      have hsub := decPairs_picklePairs ps bsP rest f hps (by
        simp only [pvFuel] at hf; omega)
      simp only [List.cons_append, List.append_assoc, decVal, decNat_encNat,
        hsub]
  | unpicklable n => simp [pickleDumps] at h

theorem decList_pickleList (vs : List PyVal) (bs rest : List Nat) (fuel : Nat)
    (h : pickleList vs = some bs) (hf : pvFuelList vs ≤ fuel) :
    decList fuel vs.length (bs ++ rest) = some (vs, rest) := by
  cases vs with
  | nil =>
    simp only [pickleList] at h
    cases h
    simp [decList]
  | cons v vs =>
    simp only [pickleList] at h
    cases hv : pickleDumps v with
    | none => rw [hv] at h; cases h
    | some bv =>
      cases hvs : pickleList vs with
      | none => rw [hv, hvs] at h; cases h
      | some bvs =>
        rw [hv, hvs] at h
        cases h
        simp only [pvFuelList] at hf
        obtain ⟨f, rfl⟩ : ∃ f, fuel = f + 1 := ⟨fuel - 1, by omega⟩
        have h1 := decVal_pickleDumps v bv (bvs ++ rest) f hv (by omega)
        have h2 := decList_pickleList vs bvs rest f hvs (by omega)
        simp only [List.length_cons, decList, List.append_assoc, h1, h2]

theorem decPairs_picklePairs (ps : List (PyVal × PyVal)) (bs rest : List Nat)
    (fuel : Nat) (h : picklePairs ps = some bs)
    (hf : pvFuelPairs ps ≤ fuel) :
    decPairs fuel ps.length (bs ++ rest) = some (ps, rest) := by
  cases ps with
  | nil =>
    simp only [picklePairs] at h
    cases h
    simp [decPairs]
  | cons kv ps =>
    obtain ⟨k, v⟩ := kv
    simp only [picklePairs] at h
    cases hk : pickleDumps k with
    | none => rw [hk] at h; cases h
    | some bk =>
      cases hv : pickleDumps v with
      | none => rw [hk, hv] at h; cases h
      | some bv =>
        cases hps : picklePairs ps with
        | none => rw [hk, hv, hps] at h; cases h
        | some bps =>
          rw [hk, hv, hps] at h
          cases h
          simp only [pvFuelPairs] at hf
          obtain ⟨f, rfl⟩ : ∃ f, fuel = f + 1 := ⟨fuel - 1, by omega⟩
          have h1 := decVal_pickleDumps k bk (bv ++ (bps ++ rest)) f hk
            (by omega)
          have h2 := decVal_pickleDumps v bv (bps ++ rest) f hv (by omega)
          have h3 := decPairs_picklePairs ps bps rest f hps (by omega)
          simp only [List.length_cons, decPairs, List.append_assoc, h1, h2,
            h3]

end

theorem encNat_length_pos (n : Nat) : 1 ≤ (encNat n).length := by
  rw [encNat_eq]
  by_cases h : n = 0
  · simp [h]
  · simp [h]

mutual

theorem pvFuel_le_length (v : PyVal) (bs : List Nat)
    (h : pickleDumps v = some bs) : pvFuel v + 1 ≤ bs.length := by
  cases v with
  | int i =>
    simp only [pickleDumps] at h
    by_cases hi : i < 0
    · rw [if_pos hi] at h
      cases h
      have := encNat_length_pos (-i).toNat
      simp only [pvFuel, List.length_cons]
      omega
    · rw [if_neg hi] at h
      cases h
      have := encNat_length_pos i.toNat
      simp only [pvFuel, List.length_cons]
      omega
  | str s =>
    simp only [pickleDumps] at h
    cases h
    have := encNat_length_pos s.length
    simp only [pvFuel, encStr, List.length_cons, List.length_append]
    omega
  | tuple xs =>
    simp only [pickleDumps] at h
    cases hxs : pickleList xs with
    | none => rw [hxs] at h; cases h
    | some bsL =>
      rw [hxs] at h
      cases h
      have h1 := pvFuelList_le_length xs bsL hxs
      have h2 := encNat_length_pos xs.length
      simp only [pvFuel, List.length_cons, List.length_append]
      omega
  | dict ps =>
    simp only [pickleDumps] at h
    cases hps : picklePairs ps with
    | none => rw [hps] at h; cases h
    | some bsP =>
      rw [hps] at h
      cases h
      have h1 := pvFuelPairs_le_length ps bsP hps
      have h2 := encNat_length_pos ps.length
      simp only [pvFuel, List.length_cons, List.length_append]
      omega
  | unpicklable n => simp [pickleDumps] at h

theorem pvFuelList_le_length (vs : List PyVal) (bs : List Nat)
    (h : pickleList vs = some bs) : pvFuelList vs ≤ bs.length := by
  cases vs with
  | nil =>
    simp only [pickleList] at h
    cases h
    simp [pvFuelList]
  | cons v vs =>
    simp only [pickleList] at h
    cases hv : pickleDumps v with
    | none => rw [hv] at h; cases h
    | some bv =>
      cases hvs : pickleList vs with
      | none => rw [hv, hvs] at h; cases h
      | some bvs =>
        rw [hv, hvs] at h
        cases h
        have h1 := pvFuel_le_length v bv hv
        have h2 := pvFuelList_le_length vs bvs hvs
        simp only [pvFuelList, List.length_append]
        omega

theorem pvFuelPairs_le_length (ps : List (PyVal × PyVal)) (bs : List Nat)
    (h : picklePairs ps = some bs) : pvFuelPairs ps ≤ bs.length := by
  cases ps with
  | nil =>
    simp only [picklePairs] at h
    cases h
    simp [pvFuelPairs]
  | cons kv ps =>
    obtain ⟨k, v⟩ := kv
    simp only [picklePairs] at h
    cases hk : pickleDumps k with
    | none => rw [hk] at h; cases h
    | some bk =>
      cases hv : pickleDumps v with
      | none => rw [hk, hv] at h; cases h
      | some bv =>
        cases hps : picklePairs ps with
        | none => rw [hk, hv, hps] at h; cases h
        | some bps =>
          rw [hk, hv, hps] at h
          cases h
          have h1 := pvFuel_le_length k bk hk
          have h2 := pvFuel_le_length v bv hv
          have h3 := pvFuelPairs_le_length ps bps hps
          simp only [pvFuelPairs, List.length_append]
          omega

end

/-- Round-trip fidelity of the serialization model: loading the bytes
produced by a successful dump returns the dumped value. -/
theorem pickleLoads_pickleDumps (v : PyVal) (bs : List Nat)
    (h : pickleDumps v = some bs) : pickleLoads bs = some v := by
  have hfuel : pvFuel v + 1 ≤ bs.length := pvFuel_le_length v bs h
  have hdec := decVal_pickleDumps v bs [] bs.length h (by omega)
  rw [List.append_nil] at hdec
  rw [pickleLoads, hdec]

/-- Loading an empty file fails: this is the `EOFError` that
`pickle.load` raises on a zero-byte stream. -/
theorem pickleLoads_nil : pickleLoads [] = none := rfl

/-- MD5 test vector: the digest of the empty message. -/
theorem md5Hex_empty : md5Hex [] = "d41d8cd98f00b204e9800998ecf8427e" := by
  decide

/-- MD5 test vector: the digest of the three ASCII bytes of abc. -/
theorem md5Hex_abc :
    md5Hex [97, 98, 99] = "900150983cd24fb0d6963f7d28e17f72" := by decide

/-! ## Key derivation: `_arg_hash`

`_arg_hash(args, kwargs)` is
`hashlib.md5(pickle.dumps((args, kwargs))).hexdigest()`.  Positional
arguments arrive as a tuple and keyword arguments as a `str`-keyed dict
whose iteration order is the insertion order of the call site, which is
how the model receives them: a list of values and an ordered list of
(name, value) items. -/

/-- The Python value `(args, kwargs)` whose pickle is hashed. -/
def argsPair (args : List PyVal) (kwargs : List (String × PyVal)) : PyVal :=
  .tuple [.tuple args, .dict (kwargs.map (fun kv => (.str kv.1, kv.2)))]

/-- Model of `_arg_hash`: the hex MD5 digest of the pickled argument
pair, or `none` for the `TypeError` raised on unpicklable arguments. -/
def _arg_hash (args : List PyVal) (kwargs : List (String × PyVal)) :
    Option String :=
  (pickleDumps (argsPair args kwargs)).map md5Hex

/-! ## The filesystem model

Paths are component lists (`Path(a) / b` is list append).  A filesystem
is a map from file paths to byte contents plus the set of existing
directories.  `open(path, "wb")` creates the file at once — before any
payload byte is written — which `FS.createFile` models by installing
empty contents; a subsequent successful `pickle.dump` fills them in. -/

/-- A filesystem path, as its list of components. -/
abbrev FsPath := List String

/-- A filesystem: file contents by path, and the set of directories. -/
structure FS where
  files : List (FsPath × List Nat)
  dirs : List FsPath
deriving DecidableEq

/-- The empty filesystem. -/
def FS.empty : FS := ⟨[], []⟩

/-- Model of `Path.exists` for an artifact path. -/
def FS.fileExists (fs : FS) (p : FsPath) : Bool :=
  (fs.files.lookup p).isSome

/-- Read the contents of a file. -/
def FS.readFile (fs : FS) (p : FsPath) : Option (List Nat) :=
  fs.files.lookup p

/-- Create or overwrite a file with the given contents. -/
def FS.writeFile (fs : FS) (p : FsPath) (data : List Nat) : FS :=
  { fs with files := (p, data) :: fs.files }

/-- All nonempty ancestors of a path, the path itself included. -/
def ancestors : FsPath → List FsPath
  | [] => []
  | x :: rest => [x] :: (ancestors rest).map (fun q => x :: q)

/-- Model of `path.mkdir(parents=True, exist_ok=True)`: the directory
and all its ancestors come into existence; nothing else changes. -/
def FS.mkdirParents (fs : FS) (p : FsPath) : FS :=
  { fs with dirs := ancestors p ++ fs.dirs }

/-! ## The wrapper produced by `diskcache_fn` -/

/-- Model of `tempfile.gettempdir()`, the system temporary directory. -/
def gettempdir : FsPath := ["tmp"]

/-- Resolution of the `cache_dir` argument of `diskcache_fn`: `None`
selects `<temp dir>/py_fn_cache`; a string is converted to a `Path` and
a `Path` is used as given, which coincide in this model. -/
def resolveCachePath (cacheDir : Option FsPath) : FsPath :=
  match cacheDir with
  | none => gettempdir ++ ["py_fn_cache"]
  | some p => p

/-- The artifact path `cache_path / f"{func.__name__}_{key}.pkl"`. -/
def cacheFilePath (funcName : String) (cacheDir : Option FsPath)
    (key : String) : FsPath :=
  resolveCachePath cacheDir ++ [funcName ++ "_" ++ key ++ ".pkl"]

/-- The errors a call can raise. -/
inductive PyErr where
  | serializationError
  | deserializationError
  | functionError
deriving DecidableEq

/-- The result of a call: a returned value or a propagated error. -/
inductive CallResult where
  | ok : PyVal → CallResult
  | error : PyErr → CallResult

/-- What one call to the wrapped function produces: its result, the
filesystem afterwards, and whether the wrapped function was invoked. -/
structure CallOutcome where
  result : CallResult
  fs : FS
  invoked : Bool

/-- A wrapped callable: `none` models the call raising an exception. -/
abbrev PyFunc := List PyVal → List (String × PyVal) → Option PyVal

/-- Model of one call of the `wrapper` closure in `diskcache_fn`,
following the source line by line: derive the key (propagating the
`TypeError` of an unpicklable argument), resolve the cache path, build
the artifact path; on a hit, load the artifact and return its contents
without invoking the function and without writing; on a miss, invoke
the function (propagating its exception before any write), create the
cache directory with its parents, open the artifact for writing —
which creates it — and dump the result into it, propagating a
serialization failure after the file has been created empty. -/
def wrapper (funcName : String) (func : PyFunc) (cacheDir : Option FsPath)
    (args : List PyVal) (kwargs : List (String × PyVal)) (fs : FS) :
    CallOutcome :=
  match _arg_hash args kwargs with
  | none => ⟨.error .serializationError, fs, false⟩
  | some key =>
    let cacheFile := cacheFilePath funcName cacheDir key
    if fs.fileExists cacheFile then
      match fs.readFile cacheFile with
      | some contents =>
        match pickleLoads contents with
        | some v => ⟨.ok v, fs, false⟩
        | none => ⟨.error .deserializationError, fs, false⟩
      | none => ⟨.error .deserializationError, fs, false⟩
    else
      match func args kwargs with
      | none => ⟨.error .functionError, fs, true⟩
      | some result =>
        let fs1 := fs.mkdirParents (resolveCachePath cacheDir)
        match pickleDumps result with
        | none => ⟨.error .serializationError, fs1.writeFile cacheFile [],
            true⟩
        | some bytes => ⟨.ok result, fs1.writeFile cacheFile bytes, true⟩

/-! ## Filesystem lemmas -/

theorem FS.readFile_writeFile (fs : FS) (p : FsPath) (d : List Nat) :
    (fs.writeFile p d).readFile p = some d := by
  simp [FS.readFile, FS.writeFile, List.lookup]

theorem FS.fileExists_writeFile (fs : FS) (p : FsPath) (d : List Nat) :
    (fs.writeFile p d).fileExists p = true := by
  have h := FS.readFile_writeFile fs p d
  simp only [FS.readFile] at h
  simp only [FS.fileExists, h, Option.isSome_some]

theorem FS.readFile_mkdirParents (fs : FS) (p q : FsPath) :
    (fs.mkdirParents p).readFile q = fs.readFile q := rfl

theorem FS.fileExists_mkdirParents (fs : FS) (p q : FsPath) :
    (fs.mkdirParents p).fileExists q = fs.fileExists q := rfl

theorem FS.files_mkdirParents (fs : FS) (p : FsPath) :
    (fs.mkdirParents p).files = fs.files := rfl

theorem FS.mem_dirs_mkdirParents (fs : FS) (p q : FsPath)
    (hq : q ∈ ancestors p) : q ∈ (fs.mkdirParents p).dirs := by
  simp [FS.mkdirParents, hq]

/-- A read of a path other than the one just written passes through. -/
theorem FS.readFile_writeFile_ne (fs : FS) (p q : FsPath) (d : List Nat)
    (h : q ≠ p) : (fs.writeFile p d).readFile q = fs.readFile q := by
  simp only [FS.readFile, FS.writeFile, List.lookup]
  rw [beq_eq_false_iff_ne.mpr h]

/-! ## Characterization of the wrapper, one lemma per control path -/

/-- The shape of the result on the hit path, as a function of the
contents found at the artifact path. -/
def hitResult : Option (List Nat) → CallResult
  | some contents =>
    match pickleLoads contents with
    | some v => .ok v
    | none => .error .deserializationError
  | none => .error .deserializationError

theorem wrapper_hashFail (funcName : String) (func : PyFunc)
    (cacheDir : Option FsPath) (args : List PyVal)
    (kwargs : List (String × PyVal)) (fs : FS)
    (h : _arg_hash args kwargs = none) :
    wrapper funcName func cacheDir args kwargs fs =
      ⟨.error .serializationError, fs, false⟩ := by
  simp only [wrapper, h]

theorem wrapper_hit (funcName : String) (func : PyFunc)
    (cacheDir : Option FsPath) (args : List PyVal)
    (kwargs : List (String × PyVal)) (fs : FS) (key : String)
    (hkey : _arg_hash args kwargs = some key)
    (hhit : fs.fileExists (cacheFilePath funcName cacheDir key) = true) :
    wrapper funcName func cacheDir args kwargs fs =
      ⟨hitResult (fs.readFile (cacheFilePath funcName cacheDir key)), fs,
        false⟩ := by
  cases hread : fs.readFile (cacheFilePath funcName cacheDir key) with
  | none => simp only [wrapper, hkey, hhit, if_true, hread, hitResult]
  | some contents =>
    cases hload : pickleLoads contents with
    | none =>
      simp only [wrapper, hkey, hhit, if_true, hread, hload, hitResult]
    | some v =>
      simp only [wrapper, hkey, hhit, if_true, hread, hload, hitResult]

theorem wrapper_miss_fnFail (funcName : String) (func : PyFunc)
    (cacheDir : Option FsPath) (args : List PyVal)
    (kwargs : List (String × PyVal)) (fs : FS) (key : String)
    (hkey : _arg_hash args kwargs = some key)
    (hmiss : fs.fileExists (cacheFilePath funcName cacheDir key) = false)
    (hfn : func args kwargs = none) :
    wrapper funcName func cacheDir args kwargs fs =
      ⟨.error .functionError, fs, true⟩ := by
  simp only [wrapper, hkey, hmiss, Bool.false_eq_true, if_false, hfn]

theorem wrapper_miss_serFail (funcName : String) (func : PyFunc)
    (cacheDir : Option FsPath) (args : List PyVal)
    (kwargs : List (String × PyVal)) (fs : FS) (key : String) (v : PyVal)
    (hkey : _arg_hash args kwargs = some key)
    (hmiss : fs.fileExists (cacheFilePath funcName cacheDir key) = false)
    (hfn : func args kwargs = some v)
    (hdump : pickleDumps v = none) :
    wrapper funcName func cacheDir args kwargs fs =
      ⟨.error .serializationError,
        (fs.mkdirParents (resolveCachePath cacheDir)).writeFile
          (cacheFilePath funcName cacheDir key) [], true⟩ := by
  simp only [wrapper, hkey, hmiss, Bool.false_eq_true, if_false, hfn, hdump]

theorem wrapper_miss_store (funcName : String) (func : PyFunc)
    (cacheDir : Option FsPath) (args : List PyVal)
    (kwargs : List (String × PyVal)) (fs : FS) (key : String) (v : PyVal)
    (bytes : List Nat)
    (hkey : _arg_hash args kwargs = some key)
    (hmiss : fs.fileExists (cacheFilePath funcName cacheDir key) = false)
    (hfn : func args kwargs = some v)
    (hdump : pickleDumps v = some bytes) :
    wrapper funcName func cacheDir args kwargs fs =
      ⟨.ok v,
        (fs.mkdirParents (resolveCachePath cacheDir)).writeFile
          (cacheFilePath funcName cacheDir key) bytes, true⟩ := by
  simp only [wrapper, hkey, hmiss, Bool.false_eq_true, if_false, hfn, hdump]

/-- An unpicklable element anywhere in a list makes the list fail to
serialize. -/
theorem pickleList_mem_none (xs : List PyVal) (v : PyVal) (hv : v ∈ xs)
    (h : pickleDumps v = none) : pickleList xs = none := by
  induction xs with
  | nil => cases hv
  | cons x xs ih =>
    cases hv with
    | head => simp [pickleList, h]
    | tail _ hv =>
      simp only [pickleList]
      rw [ih hv]
      cases pickleDumps x <;> simp

/-- An unpicklable positional argument makes key derivation fail. -/
theorem _arg_hash_unpicklable (args : List PyVal)
    (kwargs : List (String × PyVal)) (n : Nat)
    (hv : PyVal.unpicklable n ∈ args) : _arg_hash args kwargs = none := by
  have h1 : pickleList args = none :=
    pickleList_mem_none args (.unpicklable n) hv rfl
  simp [_arg_hash, argsPair, pickleDumps, pickleList, h1]

/-- An unpicklable value anywhere in a pair list makes the pair list
fail to serialize. -/
theorem picklePairs_mem_none (ps : List (PyVal × PyVal)) (k v : PyVal)
    (hv : (k, v) ∈ ps) (h : pickleDumps v = none) :
    picklePairs ps = none := by
  induction ps with
  | nil => cases hv
  | cons kv ps ih =>
    obtain ⟨k0, v0⟩ := kv
    cases hv with
    | head =>
      simp only [picklePairs, h]
      cases pickleDumps k <;> simp
    | tail _ hv =>
      simp only [picklePairs]
      rw [ih hv]
      cases pickleDumps k0 <;> cases pickleDumps v0 <;> simp

/-- An unpicklable keyword-argument value makes key derivation fail. -/
theorem _arg_hash_unpicklable_kw (args : List PyVal)
    (kwargs : List (String × PyVal)) (k : String) (n : Nat)
    (hv : (k, PyVal.unpicklable n) ∈ kwargs) :
    _arg_hash args kwargs = none := by
  have hmem : ((PyVal.str k, PyVal.unpicklable n) : PyVal × PyVal) ∈
      kwargs.map (fun kv => (PyVal.str kv.1, kv.2)) := by
    exact List.mem_map_of_mem _ hv
  have h1 : picklePairs (kwargs.map (fun kv => (PyVal.str kv.1, kv.2)))
      = none := picklePairs_mem_none _ _ _ hmem rfl
  have h2 : pickleDumps
      (PyVal.dict (kwargs.map (fun kv => (PyVal.str kv.1, kv.2)))) = none := by
    simp [pickleDumps, h1]
  have h3 : pickleList [PyVal.tuple args,
      PyVal.dict (kwargs.map (fun kv => (PyVal.str kv.1, kv.2)))] = none :=
    pickleList_mem_none _ _ (by simp) h2
  simp [_arg_hash, argsPair, pickleDumps, h3]

/-- Writing a file has no effect on the directory set. -/
theorem FS.dirs_writeFile (fs : FS) (p : FsPath) (d : List Nat) :
    (fs.writeFile p d).dirs = fs.dirs := rfl

/-! ## Concrete instances used by witnesses and counterexamples -/

/-- The declared name of the test function `add`. -/
def addName : String := "add"

/-- The wrapped `add(a, b) = a + b` of the test suite; calling it with
anything but two ints raises. -/
def addFn : PyFunc := fun args _ =>
  match args with
  | [PyVal.int a, PyVal.int b] => some (.int (a + b))
  | _ => none

/-- The cache directory `/tmp/fn_cache` used by the test suite. -/
def fnCacheDir : Option FsPath := some ["tmp", "fn_cache"]

/-- A generic declared function name. -/
def fName : String := "f"

/-- A function whose return value cannot be pickled (e.g. it returns a
lambda). -/
def lambdaFn : PyFunc := fun _ _ => some (.unpicklable 0)

/-- A function that raises on every call. -/
def raiseFn : PyFunc := fun _ _ => none

/-- A function that returns 99 on every call. -/
def const99Fn : PyFunc := fun _ _ => some (.int 99)

/-- The key `_arg_hash((1, 2), {})` — computed by the embedded MD5. -/
def key12 : String := "ca29bb4ed628fa95badf879de38f76ef"

/-- The key `_arg_hash((), {})` — computed by the embedded MD5. -/
def keyEmpty : String := "ca2d2569952b1baec998061a30522d6c"

/-! ## The claims -/

/-- C1: for a wrapped pure function and picklable arguments, when the
first call succeeds and stores its artifact (the claim presupposes an
artifact that is then never deleted), calling the wrapper twice with
identical arguments invokes the function exactly once — on the first
call, not the second — and the second call returns the same value as
the first. -/
theorem C1_at_most_one_execution (funcName : String) (func : PyFunc)
    (cacheDir : Option FsPath) (args : List PyVal)
    (kwargs : List (String × PyVal)) (fs : FS) (key : String) (v : PyVal)
    (bytes : List Nat)
    (hkey : _arg_hash args kwargs = some key)
    (hmiss : fs.fileExists (cacheFilePath funcName cacheDir key) = false)
    (hfn : func args kwargs = some v)
    (hdump : pickleDumps v = some bytes) :
    (wrapper funcName func cacheDir args kwargs fs).invoked = true ∧
    (wrapper funcName func cacheDir args kwargs
        (wrapper funcName func cacheDir args kwargs fs).fs).invoked
      = false ∧
    (wrapper funcName func cacheDir args kwargs fs).result = .ok v ∧
    (wrapper funcName func cacheDir args kwargs
        (wrapper funcName func cacheDir args kwargs fs).fs).result
      = .ok v := by
  have h1 := wrapper_miss_store funcName func cacheDir args kwargs fs key v
    bytes hkey hmiss hfn hdump
  have hex : ((fs.mkdirParents (resolveCachePath cacheDir)).writeFile
      (cacheFilePath funcName cacheDir key) bytes).fileExists
      (cacheFilePath funcName cacheDir key) = true :=
    FS.fileExists_writeFile _ _ _
  have h2 := wrapper_hit funcName func cacheDir args kwargs
    ((fs.mkdirParents (resolveCachePath cacheDir)).writeFile
      (cacheFilePath funcName cacheDir key) bytes) key hkey hex
  have hread := FS.readFile_writeFile
    (fs.mkdirParents (resolveCachePath cacheDir))
    (cacheFilePath funcName cacheDir key) bytes
  have hload := pickleLoads_pickleDumps v bytes hdump
  refine ⟨?_, ?_, ?_, ?_⟩ <;>
    simp [h1, h2, hread, hitResult, hload]

/-- C1 witness: the concrete scenario of the test suite — `add(1, 2)`
with cache directory `/tmp/fn_cache` on an empty filesystem. -/
theorem C1_at_most_one_execution_witness :
    (wrapper addName addFn fnCacheDir [PyVal.int 1, PyVal.int 2] []
        FS.empty).invoked = true ∧
    (wrapper addName addFn fnCacheDir [PyVal.int 1, PyVal.int 2] []
        (wrapper addName addFn fnCacheDir [PyVal.int 1, PyVal.int 2] []
          FS.empty).fs).invoked = false ∧
    (wrapper addName addFn fnCacheDir [PyVal.int 1, PyVal.int 2] []
        FS.empty).result = .ok (.int 3) ∧
    (wrapper addName addFn fnCacheDir [PyVal.int 1, PyVal.int 2] []
        (wrapper addName addFn fnCacheDir [PyVal.int 1, PyVal.int 2] []
          FS.empty).fs).result = .ok (.int 3) :=
  C1_at_most_one_execution addName addFn fnCacheDir
    [PyVal.int 1, PyVal.int 2] [] FS.empty key12 (PyVal.int 3) [0, 3, 255]
    (by decide) (by decide) rfl rfl

/-- C2 counterexample: two keyword-argument mappings holding exactly
the same key/value pairs, inserted in different orders, derive
different cache keys — `pickle.dumps` serializes a dict in iteration
(insertion) order, so the serialized bytes and hence the MD5 digests
differ. -/
theorem C2_counterexample :
    List.Perm [(("a" : String), PyVal.int 0), ("b", PyVal.int 1)]
      [("b", PyVal.int 1), ("a", PyVal.int 0)] ∧
    _arg_hash [] [("a", PyVal.int 0), ("b", PyVal.int 1)] ≠
      _arg_hash [] [("b", PyVal.int 1), ("a", PyVal.int 0)] :=
  ⟨List.Perm.swap _ _ _, by decide⟩

/-- C2 as amended: the key is a function of the positional tuple and of
the keyword mapping AS ITERATED — equal positional tuples and equal
keyword item sequences (same pairs in the same iteration order) always
derive the same key string; mappings with equal pairs in different
insertion orders may derive different keys. -/
theorem C2_key_function_of_item_sequence (args1 args2 : List PyVal)
    (kwargs1 kwargs2 : List (String × PyVal))
    (hargs : args1 = args2) (hkw : kwargs1 = kwargs2) :
    _arg_hash args1 kwargs1 = _arg_hash args2 kwargs2 := by
  rw [hargs, hkw]

/-- C2 witness: the amended claim applied at a concrete input. -/
theorem C2_key_function_of_item_sequence_witness :
    _arg_hash [] [("a", PyVal.int 0), ("b", PyVal.int 1)] =
      _arg_hash [] [("a", PyVal.int 0), ("b", PyVal.int 1)] :=
  C2_key_function_of_item_sequence [] []
    [("a", PyVal.int 0), ("b", PyVal.int 1)]
    [("a", PyVal.int 0), ("b", PyVal.int 1)] rfl rfl

/-- C3 counterexample: on a miss whose return value cannot be pickled
the serialization error does propagate, but an artifact file DOES exist
at the target path afterwards — `open(path, "wb")` created it before
`pickle.dump` raised — so the cache state for the key is not unchanged,
refuting the claim at this concrete input. -/
theorem C3_counterexample :
    (wrapper fName lambdaFn fnCacheDir [] [] FS.empty).result =
      .error .serializationError ∧
    (wrapper fName lambdaFn fnCacheDir [] [] FS.empty).fs.fileExists
      (cacheFilePath fName fnCacheDir keyEmpty) = true :=
  ⟨rfl, by decide⟩

/-- C3 as amended: if serializing the return value fails on a miss, the
serialization error propagates to the caller, but the cache state for
the key changes: an empty artifact file is left behind at the target
path, created by opening the file for writing before the dump ran. -/
theorem C3_serialize_failure_leaves_empty_artifact (funcName : String)
    (func : PyFunc) (cacheDir : Option FsPath) (args : List PyVal)
    (kwargs : List (String × PyVal)) (fs : FS) (key : String) (v : PyVal)
    (hkey : _arg_hash args kwargs = some key)
    (hmiss : fs.fileExists (cacheFilePath funcName cacheDir key) = false)
    (hfn : func args kwargs = some v)
    (hdump : pickleDumps v = none) :
    (wrapper funcName func cacheDir args kwargs fs).result =
      .error .serializationError ∧
    (wrapper funcName func cacheDir args kwargs fs).fs.fileExists
      (cacheFilePath funcName cacheDir key) = true ∧
    (wrapper funcName func cacheDir args kwargs fs).fs.readFile
      (cacheFilePath funcName cacheDir key) = some [] := by
  have h := wrapper_miss_serFail funcName func cacheDir args kwargs fs key v
    hkey hmiss hfn hdump
  have hex := FS.fileExists_writeFile
    (fs.mkdirParents (resolveCachePath cacheDir))
    (cacheFilePath funcName cacheDir key) ([] : List Nat)
  have hread := FS.readFile_writeFile
    (fs.mkdirParents (resolveCachePath cacheDir))
    (cacheFilePath funcName cacheDir key) ([] : List Nat)
  exact ⟨by simp [h], by simp [h, hex], by simp [h, hread]⟩

/-- C3 witness: the amended claim applied at the concrete scenario of
the counterexample. -/
theorem C3_serialize_failure_leaves_empty_artifact_witness :
    (wrapper fName lambdaFn fnCacheDir [] [] FS.empty).result =
      .error .serializationError ∧
    (wrapper fName lambdaFn fnCacheDir [] [] FS.empty).fs.fileExists
      (cacheFilePath fName fnCacheDir keyEmpty) = true ∧
    (wrapper fName lambdaFn fnCacheDir [] [] FS.empty).fs.readFile
      (cacheFilePath fName fnCacheDir keyEmpty) = some [] :=
  C3_serialize_failure_leaves_empty_artifact fName lambdaFn fnCacheDir [] []
    FS.empty keyEmpty (.unpicklable 0) (by decide) (by decide) rfl rfl

/-- C4: on a miss the wrapper invokes the function with the original
arguments, unchanged, and returns its value; it creates the cache directory and
every missing ancestor of it, and it writes the serialized return
value to the file `<function name>_<key>.pkl` inside the cache
directory. -/
theorem C4_miss_computes_and_stores (funcName : String) (func : PyFunc)
    (cacheDir : Option FsPath) (args : List PyVal)
    (kwargs : List (String × PyVal)) (fs : FS) (key : String) (v : PyVal)
    (bytes : List Nat)
    (hkey : _arg_hash args kwargs = some key)
    (hmiss : fs.fileExists (cacheFilePath funcName cacheDir key) = false)
    (hfn : func args kwargs = some v)
    (hdump : pickleDumps v = some bytes) :
    (wrapper funcName func cacheDir args kwargs fs).invoked = true ∧
    (wrapper funcName func cacheDir args kwargs fs).result = .ok v ∧
    (wrapper funcName func cacheDir args kwargs fs).fs.readFile
      (cacheFilePath funcName cacheDir key) = some bytes ∧
    ∀ q ∈ ancestors (resolveCachePath cacheDir),
      q ∈ (wrapper funcName func cacheDir args kwargs fs).fs.dirs := by
  have h := wrapper_miss_store funcName func cacheDir args kwargs fs key v
    bytes hkey hmiss hfn hdump
  have hread := FS.readFile_writeFile
    (fs.mkdirParents (resolveCachePath cacheDir))
    (cacheFilePath funcName cacheDir key) bytes
  refine ⟨by simp [h], by simp [h], by simp [h, hread], ?_⟩
  intro q hq
  simp only [h]
  rw [show ((fs.mkdirParents (resolveCachePath cacheDir)).writeFile
      (cacheFilePath funcName cacheDir key) bytes).dirs =
      (fs.mkdirParents (resolveCachePath cacheDir)).dirs from rfl]
  exact FS.mem_dirs_mkdirParents fs (resolveCachePath cacheDir) q hq

/-- C4 witness: the miss `add(1, 2)` on an empty filesystem computes 3,
stores its pickle at `/tmp/fn_cache/add_<key>.pkl` and creates both
`/tmp` and `/tmp/fn_cache`. -/
theorem C4_miss_computes_and_stores_witness :
    (wrapper addName addFn fnCacheDir [PyVal.int 1, PyVal.int 2] []
      FS.empty).invoked = true ∧
    (wrapper addName addFn fnCacheDir [PyVal.int 1, PyVal.int 2] []
      FS.empty).result = .ok (.int 3) ∧
    (wrapper addName addFn fnCacheDir [PyVal.int 1, PyVal.int 2] []
      FS.empty).fs.readFile (cacheFilePath addName fnCacheDir key12) =
      some [0, 3, 255] ∧
    ∀ q ∈ ancestors (resolveCachePath fnCacheDir),
      q ∈ (wrapper addName addFn fnCacheDir [PyVal.int 1, PyVal.int 2] []
        FS.empty).fs.dirs :=
  C4_miss_computes_and_stores addName addFn fnCacheDir
    [PyVal.int 1, PyVal.int 2] [] FS.empty key12 (PyVal.int 3) [0, 3, 255]
    (by decide) (by decide) rfl rfl

/-- C5: on a hit the wrapper does not invoke the wrapped function and
leaves the filesystem exactly as it was — no directory creation, no
file creation or mutation — and whenever the artifact contents
deserialize to a value, that value is the result of the call. -/
theorem C5_hit_reads_only (funcName : String) (func : PyFunc)
    (cacheDir : Option FsPath) (args : List PyVal)
    (kwargs : List (String × PyVal)) (fs : FS) (key : String)
    (hkey : _arg_hash args kwargs = some key)
    (hhit : fs.fileExists (cacheFilePath funcName cacheDir key) = true) :
    (wrapper funcName func cacheDir args kwargs fs).invoked = false ∧
    (wrapper funcName func cacheDir args kwargs fs).fs = fs ∧
    ∀ contents v,
      fs.readFile (cacheFilePath funcName cacheDir key) = some contents →
      pickleLoads contents = some v →
      (wrapper funcName func cacheDir args kwargs fs).result = .ok v := by
  have h := wrapper_hit funcName func cacheDir args kwargs fs key hkey hhit
  refine ⟨by simp [h], by simp [h], ?_⟩
  intro contents v hc hl
  simp [h, hc, hitResult, hl]

/-- C5 witness: a hit on a filesystem holding the pickled 3 under the
artifact path of `add(1, 2)` returns 3, does not invoke the function
and changes nothing. -/
theorem C5_hit_reads_only_witness :
    (wrapper addName addFn fnCacheDir [PyVal.int 1, PyVal.int 2] []
      (FS.empty.writeFile (cacheFilePath addName fnCacheDir key12)
        [0, 3, 255])).invoked = false ∧
    (wrapper addName addFn fnCacheDir [PyVal.int 1, PyVal.int 2] []
      (FS.empty.writeFile (cacheFilePath addName fnCacheDir key12)
        [0, 3, 255])).fs =
      FS.empty.writeFile (cacheFilePath addName fnCacheDir key12)
        [0, 3, 255] ∧
    ∀ contents v,
      (FS.empty.writeFile (cacheFilePath addName fnCacheDir key12)
        [0, 3, 255]).readFile (cacheFilePath addName fnCacheDir key12) =
        some contents →
      pickleLoads contents = some v →
      (wrapper addName addFn fnCacheDir [PyVal.int 1, PyVal.int 2] []
        (FS.empty.writeFile (cacheFilePath addName fnCacheDir key12)
          [0, 3, 255])).result = .ok v :=
  C5_hit_reads_only addName addFn fnCacheDir [PyVal.int 1, PyVal.int 2] []
    (FS.empty.writeFile (cacheFilePath addName fnCacheDir key12)
      [0, 3, 255]) key12 (by decide) (by decide)

/-- C6: key derivation is deterministic — it is a pure function of the
argument pair, so identical inputs always derive the identical key
string. -/
theorem C6_key_derivation_deterministic (args1 args2 : List PyVal)
    (kwargs1 kwargs2 : List (String × PyVal))
    (hargs : args1 = args2) (hkw : kwargs1 = kwargs2) :
    _arg_hash args1 kwargs1 = _arg_hash args2 kwargs2 := by
  rw [hargs, hkw]

/-- C6 witness: determinism at a concrete input. -/
theorem C6_key_derivation_deterministic_witness :
    _arg_hash [PyVal.int 1, PyVal.int 2] [] =
      _arg_hash [PyVal.int 1, PyVal.int 2] [] :=
  C6_key_derivation_deterministic [PyVal.int 1, PyVal.int 2]
    [PyVal.int 1, PyVal.int 2] [] [] rfl rfl

/-- C7: when some argument — positional or keyword — is not
serializable, key derivation fails, the serialization error propagates,
and the call aborts before anything else happens: the function is not
invoked and the filesystem, hence the cache, is completely untouched. -/
theorem C7_unpicklable_argument_aborts (funcName : String) (func : PyFunc)
    (cacheDir : Option FsPath) (args : List PyVal)
    (kwargs : List (String × PyVal)) (fs : FS) (n : Nat)
    (hv : PyVal.unpicklable n ∈ args ∨
      ∃ k, (k, PyVal.unpicklable n) ∈ kwargs) :
    wrapper funcName func cacheDir args kwargs fs =
      ⟨.error .serializationError, fs, false⟩ := by
  cases hv with
  | inl hv =>
    exact wrapper_hashFail funcName func cacheDir args kwargs fs
      (_arg_hash_unpicklable args kwargs n hv)
  | inr hv =>
    obtain ⟨k, hk⟩ := hv
    exact wrapper_hashFail funcName func cacheDir args kwargs fs
      (_arg_hash_unpicklable_kw args kwargs k n hk)

/-- C7 witness: calling the wrapper with an open-handle-like argument
raises the serialization error, leaves the empty filesystem empty and
never invokes the function. -/
theorem C7_unpicklable_argument_aborts_witness :
    wrapper fName addFn fnCacheDir [PyVal.unpicklable 0] [] FS.empty =
      ⟨.error .serializationError, FS.empty, false⟩ :=
  C7_unpicklable_argument_aborts fName addFn fnCacheDir
    [PyVal.unpicklable 0] [] FS.empty 0 (Or.inl (by simp))

/-- C8: if the wrapped function itself raises on a miss, the error
propagates to the caller and the filesystem is returned exactly
unchanged: no artifact is written for the key and the cache directory
is not created, because `mkdir` only runs after the function has
returned. -/
theorem C8_function_error_leaves_fs_unchanged (funcName : String)
    (func : PyFunc) (cacheDir : Option FsPath) (args : List PyVal)
    (kwargs : List (String × PyVal)) (fs : FS) (key : String)
    (hkey : _arg_hash args kwargs = some key)
    (hmiss : fs.fileExists (cacheFilePath funcName cacheDir key) = false)
    (hfn : func args kwargs = none) :
    wrapper funcName func cacheDir args kwargs fs =
      ⟨.error .functionError, fs, true⟩ :=
  wrapper_miss_fnFail funcName func cacheDir args kwargs fs key hkey hmiss
    hfn

/-- C8 witness: a raising function on an empty filesystem propagates
its error and leaves the filesystem empty — no file, no directory. -/
theorem C8_function_error_leaves_fs_unchanged_witness :
    wrapper fName raiseFn fnCacheDir [] [] FS.empty =
      ⟨.error .functionError, FS.empty, true⟩ :=
  C8_function_error_leaves_fs_unchanged fName raiseFn fnCacheDir [] []
    FS.empty keyEmpty (by decide) (by decide) rfl

/-- C9: the argument tuples (1, 2) and (2, 1) derive distinct keys;
calling the wrapped `add` with both — the function returning the equal
value 3 each time — stores two artifacts under two distinct paths. -/
theorem C9_argument_order_distinguishes :
    _arg_hash [PyVal.int 1, PyVal.int 2] [] ≠
      _arg_hash [PyVal.int 2, PyVal.int 1] [] ∧
    (wrapper addName addFn fnCacheDir [PyVal.int 1, PyVal.int 2] []
      FS.empty).result = .ok (.int 3) ∧
    (wrapper addName addFn fnCacheDir [PyVal.int 2, PyVal.int 1] []
      (wrapper addName addFn fnCacheDir [PyVal.int 1, PyVal.int 2] []
        FS.empty).fs).result = .ok (.int 3) ∧
    (wrapper addName addFn fnCacheDir [PyVal.int 2, PyVal.int 1] []
      (wrapper addName addFn fnCacheDir [PyVal.int 1, PyVal.int 2] []
        FS.empty).fs).fs.files.length = 2 ∧
    ((wrapper addName addFn fnCacheDir [PyVal.int 2, PyVal.int 1] []
      (wrapper addName addFn fnCacheDir [PyVal.int 1, PyVal.int 2] []
        FS.empty).fs).fs.files.map Prod.fst).Nodup :=
  ⟨by decide, rfl, rfl, by decide, by decide⟩

/-- C10: the key does not depend on the wrapped function and the
artifact name uses only the declared name plus the key; hence once one
function has populated the cache, calling a second wrapped function
with the same declared name, the same cache directory and the cached
arguments returns the cached value of the FIRST function, whatever the
second function is, and never invokes the second function. -/
theorem C10_same_name_returns_cached_value_of_other (funcName : String)
    (f g : PyFunc) (cacheDir : Option FsPath) (args : List PyVal)
    (kwargs : List (String × PyVal)) (fs : FS) (key : String) (v : PyVal)
    (bytes : List Nat)
    (hkey : _arg_hash args kwargs = some key)
    (hmiss : fs.fileExists (cacheFilePath funcName cacheDir key) = false)
    (hfn : f args kwargs = some v)
    (hdump : pickleDumps v = some bytes) :
    (wrapper funcName g cacheDir args kwargs
      (wrapper funcName f cacheDir args kwargs fs).fs).result = .ok v ∧
    (wrapper funcName g cacheDir args kwargs
      (wrapper funcName f cacheDir args kwargs fs).fs).invoked = false := by
  have h1 := wrapper_miss_store funcName f cacheDir args kwargs fs key v
    bytes hkey hmiss hfn hdump
  have hex : ((fs.mkdirParents (resolveCachePath cacheDir)).writeFile
      (cacheFilePath funcName cacheDir key) bytes).fileExists
      (cacheFilePath funcName cacheDir key) = true :=
    FS.fileExists_writeFile _ _ _
  have h2 := wrapper_hit funcName g cacheDir args kwargs
    ((fs.mkdirParents (resolveCachePath cacheDir)).writeFile
      (cacheFilePath funcName cacheDir key) bytes) key hkey hex
  have hread := FS.readFile_writeFile
    (fs.mkdirParents (resolveCachePath cacheDir))
    (cacheFilePath funcName cacheDir key) bytes
  have hload := pickleLoads_pickleDumps v bytes hdump
  constructor <;> simp [h1, h2, hread, hitResult, hload]

/-- C10 witness: after `add` has cached 3 for (1, 2), a function that
always returns 99 but is wrapped under the same declared name and cache
directory returns the cached 3 on (1, 2) and is not invoked. -/
theorem C10_same_name_returns_cached_value_of_other_witness :
    (wrapper addName const99Fn fnCacheDir [PyVal.int 1, PyVal.int 2] []
      (wrapper addName addFn fnCacheDir [PyVal.int 1, PyVal.int 2] []
        FS.empty).fs).result = .ok (.int 3) ∧
    (wrapper addName const99Fn fnCacheDir [PyVal.int 1, PyVal.int 2] []
      (wrapper addName addFn fnCacheDir [PyVal.int 1, PyVal.int 2] []
        FS.empty).fs).invoked = false :=
  C10_same_name_returns_cached_value_of_other addName addFn const99Fn
    fnCacheDir [PyVal.int 1, PyVal.int 2] [] FS.empty key12 (PyVal.int 3)
    [0, 3, 255] (by decide) (by decide) rfl rfl

end Naren
